import Mathlib

/-!
Verification of the MicroBench call-tree dispatcher, connection registry and
ingress adapter, as a shallow embedding of the Go sources
`src/pkg/service/service.go` and `src/cmd/service/main.go`.

Real time (sleeps, deadlines) and the network transport are outside the
model; the outcome of each downstream gRPC call is supplied by an oracle
indexed by fan-out position, and the connection registry is modelled as the
sequential state machine obtained from the locked Go code (the RLock fast
path and the double-checked Lock path collapse into a single lookup).
-/

namespace Microbench

/-- Embedding of the wire message `pb.Message` exchanged between nodes:
fields `From`, `BenchId`, `TraceId`, `Depth`.  `Depth` is a Go `int32`;
we model it as an `Int` on which every arithmetic step is reduced by
`wrap32` below, matching two-complement wraparound. -/
structure Message where
  from_   : String
  benchId : String
  traceId : String
  depth   : Int
deriving DecidableEq, Repr

/-- The per-process configuration of a node (`Service` struct in
service.go): its name, the downstream peer list `outServices`, and the
simulated processing delay in nanoseconds (behaviourally inert here since
real time is outside the model). -/
structure Service where
  name            : String
  outServices     : List String
  processingDelay : Nat
deriving DecidableEq, Repr

/-- Two-complement wraparound of a mathematical integer into the Go
`int32` range, used wherever service.go performs `int32` arithmetic. -/
def wrap32 (x : Int) : Int :=
  (x + 2147483648) % 4294967296 - 2147483648

/-- The request constructed by `callService` (service.go lines 112-117):
`From` is this node, `BenchId`, `TraceId` and `Depth` are the arguments
passed by `Process`. -/
def callServiceReq (s : Service) (benchID traceID : String) (depth : Int) : Message :=
  { from_ := s.name, benchId := benchID, traceId := traceID, depth := depth }

/-- Everything observable about one `Process` invocation: the value/error
pair it returns (`reply`), the downstream requests it issues (peer name
paired with the request message), the responses drained from the
`responses` channel, and the error strings drained from the `errors`
channel and logged. -/
structure ProcessResult where
  reply        : Except String Message
  issued       : List (String × Message)
  collected    : List Message
  loggedErrors : List String
deriving Repr

/-- Shallow embedding of `Service.Process` (service.go lines 121-192).
`downstream i` is the outcome of the gRPC call issued for the i-th peer of
`s.outServices` (an error or a response message); tracing spans and the
`time.Sleep` are outside the model.  Note both return sites of the Go
function return a nil error, hence `reply` is `.ok` in both branches. -/
def Process (s : Service) (req : Message) (downstream : Nat → Except String Message) :
    ProcessResult :=
  let thisDepth := wrap32 (req.depth + 1)
  if s.outServices.length = 0 then
    { reply := .ok { from_ := s.name, benchId := req.benchId, traceId := req.traceId,
                     depth := thisDepth }
      issued := []
      collected := []
      loggedErrors := [] }
  else
    let results := (List.range s.outServices.length).map downstream
    { reply := .ok { from_ := s.name, benchId := req.benchId, traceId := req.traceId,
                     depth := 0 }
      issued := s.outServices.map fun svc =>
        (svc, callServiceReq s req.benchId req.traceId thisDepth)
      collected := results.filterMap fun r =>
        match r with
        | .ok m => some m
        | .error _ => none
      loggedErrors := results.filterMap fun r =>
        match r with
        | .ok _ => none
        | .error e => some e }

/-- The response `handle_http` produces for the original HTTP caller:
405 for an unsupported method, a 500 server error carrying an error text,
or a 200 success carrying the benchId and traceId it echoes back. -/
inductive HttpOutcome where
  | methodNotAllowed : HttpOutcome
  | serverError : String → HttpOutcome
  | success : String → String → HttpOutcome
deriving DecidableEq, Repr

/-- Shallow embedding of `handle_http` (service.go lines 194-255).
`method` and `body` come from the HTTP request, `traceId` stands for the
time-derived `fmt.Sprintf` value, and `downstream` is threaded to
`Process`.  The 3-second `context.WithTimeout` is real time, outside the
model; its only functional effect is that downstream call outcomes may be
deadline errors, which arrive through `downstream`. -/
def handle_http (s : Service) (method body traceId : String)
    (downstream : Nat → Except String Message) : HttpOutcome :=
  if method = "GET" then
    match (Process s { from_ := s.name, benchId := "default", traceId := traceId,
                       depth := 0 } downstream).reply with
    | .error e => .serverError e
    | .ok _ => .success "default" traceId
  else if method = "POST" then
    match (Process s { from_ := s.name, benchId := body, traceId := traceId,
                       depth := 0 } downstream).reply with
    | .error e => .serverError e
    | .ok _ => .success body traceId
  else
    .methodNotAllowed

/-- An abstract gRPC channel handle (`*grpc.ClientConn`); the `id` only
serves to compare handles for identity. -/
structure Conn where
  id : Nat
deriving DecidableEq, Repr

/-- Everything observable about one `getConnection` invocation: the
value/error pair it returns, the connection pool after the call, and
whether this call constructed (and inserted) a new channel. -/
structure GetConnResult where
  result      : Except String Conn
  pool        : List (String × Conn)
  constructed : Bool
deriving Repr

/-- Lookup in the connection pool map `connPool`, modelled as an
association list (first binding wins, matching map semantics since
`getConnection` only inserts names that are absent). -/
def poolLookup : List (String × Conn) → String → Option Conn
  | [], _ => none
  | (n, c) :: rest, k => if n = k then some c else poolLookup rest k

/-- Shallow embedding of `getConnection` (service.go lines 257-291),
sequentialized: the RLock fast path and the double-checked path under the
exclusive lock collapse into one lookup.  `newClient` is the oracle for
`grpc.NewClient` on the peer address; on failure the pool is left
untouched, on success the new channel is inserted. -/
def getConnection (newClient : String → Except String Conn)
    (pool : List (String × Conn)) (serviceName : String) : GetConnResult :=
  match poolLookup pool serviceName with
  | some conn => { result := .ok conn, pool := pool, constructed := false }
  | none =>
    match newClient serviceName with
    | .error e =>
      { result := .error ("failed to connect to " ++ serviceName ++ ": " ++ e)
        pool := pool
        constructed := false }
    | .ok conn =>
      { result := .ok conn, pool := (serviceName, conn) :: pool, constructed := true }

/-- The pool after a sequence of `getConnection` calls (one process
lifetime), starting from `pool`. -/
def runPool (newClient : String → Except String Conn) :
    List String → List (String × Conn) → List (String × Conn)
  | [], pool => pool
  | q :: qs, pool => runPool newClient qs (getConnection newClient pool q).pool

/-- How many calls in the sequence `calls` construct a channel for peer
`p`, starting from `pool`. -/
def constructionCount (newClient : String → Except String Conn) (p : String) :
    List String → List (String × Conn) → Nat
  | [], _ => 0
  | q :: qs, pool =>
    let r := getConnection newClient pool q
    (if q = p ∧ r.constructed = true then 1 else 0) + constructionCount newClient p qs r.pool

/-- Embedding of the Go `strings.Split` on the separator "," (a single
character), over the characters of the flag value: `Split("", ",") = [""]`,
and otherwise the maximal comma-free segments in order, with empty
segments kept. -/
def splitOnComma : List Char → List (List Char)
  | [] => [[]]
  | c :: cs =>
    if c = ',' then [] :: splitOnComma cs
    else
      match splitOnComma cs with
      | [] => [[c]]
      | seg :: segs => (c :: seg) :: segs

/-- Shallow embedding of the `-out` flag processing in main.go lines
133-136: the split result becomes the peer list only when it has more than
one element, otherwise the peer list stays empty. -/
def processedOutServices (out : List Char) : List (List Char) :=
  let split := splitOnComma out
  if split.length > 1 then split else []

/-! ## Helper lemmas -/

/-- Both branches of `Process` return a nil error together with a reply
whose identity fields are copied from the input; only the depth differs
between the leaf and the fan-out branch. -/
lemma Process_reply_eq (s : Service) (u : Message) (d : Nat → Except String Message) :
    (Process s u d).reply =
      .ok { from_ := s.name, benchId := u.benchId, traceId := u.traceId,
            depth := if s.outServices.length = 0 then wrap32 (u.depth + 1) else 0 } := by
  unfold Process
  by_cases h : s.outServices.length = 0 <;> simp [h]

/-- In the int32 range below the maximum, the wrapped increment agrees
with the mathematical increment. -/
lemma wrap32_add_one_eq (d : Int) (h1 : -2147483648 ≤ d) (h2 : d < 2147483647) :
    wrap32 (d + 1) = d + 1 := by
  unfold wrap32
  omega

/-! ## Claims about `Process` -/

/-- C2 counterexample: on a leaf node, the reply depth is the input depth
plus one only up to int32 wraparound; at input depth 2147483647 (the
largest value an int32 WorkUnit can carry) the Go code returns depth
-2147483648, not 2147483648. -/
theorem process_leaf_depth_overflow :
    (Process ⟨"leaf", [], 0⟩ ⟨"ingress", "b", "t", 2147483647⟩
        (fun _ => .error "unused")).reply
      = .ok ⟨"leaf", "b", "t", -2147483648⟩ ∧
    (2147483647 : Int) + 1 ≠ -2147483648 := by
  exact ⟨rfl, by decide⟩

/-- C2 (amended): on a leaf node (empty peer set), `Process` issues no
downstream calls and returns a reply with origin this node, benchId and
traceId copied from the input, and depth equal to the input depth plus one
computed in wrapping int32 arithmetic — which agrees with input.depth + 1
whenever the input depth is an int32 value below 2147483647. -/
theorem process_leaf_spec (s : Service) (u : Message) (d : Nat → Except String Message)
    (h : s.outServices = []) :
    (Process s u d).issued = [] ∧
    (Process s u d).reply =
      .ok { from_ := s.name, benchId := u.benchId, traceId := u.traceId,
            depth := wrap32 (u.depth + 1) } ∧
    (-2147483648 ≤ u.depth → u.depth < 2147483647 → wrap32 (u.depth + 1) = u.depth + 1) := by
  refine ⟨by simp [Process, h], by simp [Process, h], fun h1 h2 => wrap32_add_one_eq _ h1 h2⟩

/-- Witness for C2 (amended) at a concrete leaf node and input depth 7. -/
theorem process_leaf_spec_witness :
    ((⟨"leaf", [], 0⟩ : Service).outServices = []) ∧
    (Process ⟨"leaf", [], 0⟩ ⟨"i", "b", "t", 7⟩ (fun _ => .error "e")).issued = [] ∧
    (Process ⟨"leaf", [], 0⟩ ⟨"i", "b", "t", 7⟩ (fun _ => .error "e")).reply
      = .ok ⟨"leaf", "b", "t", wrap32 (7 + 1)⟩ ∧
    wrap32 ((7 : Int) + 1) = 7 + 1 :=
  ⟨rfl,
   (process_leaf_spec ⟨"leaf", [], 0⟩ ⟨"i", "b", "t", 7⟩ (fun _ => .error "e") rfl).1,
   (process_leaf_spec ⟨"leaf", [], 0⟩ ⟨"i", "b", "t", 7⟩ (fun _ => .error "e") rfl).2.1,
   (process_leaf_spec ⟨"leaf", [], 0⟩ ⟨"i", "b", "t", 7⟩ (fun _ => .error "e") rfl).2.2
     (by decide) (by decide)⟩

/-- C3: on a node with a non-empty peer set, `Process` returns a reply
with origin this node, benchId and traceId copied from the input, and
depth 0, whatever the downstream replies carry. -/
theorem process_branch_reply (s : Service) (u : Message) (d : Nat → Except String Message)
    (h : s.outServices ≠ []) :
    (Process s u d).reply =
      .ok { from_ := s.name, benchId := u.benchId, traceId := u.traceId, depth := 0 } := by
  have hl : ¬ s.outServices.length = 0 := by simpa [List.length_eq_zero] using h
  simp [Process, hl]

/-- Witness for C3 at a concrete branch node whose peer replies with
depth 99: the aggregated reply still has depth 0. -/
theorem process_branch_reply_witness :
    ((⟨"n", ["p"], 0⟩ : Service).outServices ≠ []) ∧
    (Process ⟨"n", ["p"], 0⟩ ⟨"i", "b", "t", 5⟩ (fun _ => .ok ⟨"p", "b", "t", 99⟩)).reply
      = .ok ⟨"n", "b", "t", 0⟩ :=
  ⟨by decide, process_branch_reply _ _ _ (by decide)⟩

/-- C10: on a node with a non-empty peer set, the reply of `Process` does
not depend on the downstream call outcomes at all: two executions with
different downstream oracles return the same reply. -/
theorem branch_reply_independent_of_downstream (s : Service) (u : Message)
    (d1 d2 : Nat → Except String Message) (_h : s.outServices ≠ []) :
    (Process s u d1).reply = (Process s u d2).reply := by
  rw [Process_reply_eq, Process_reply_eq]

/-- Witness for C10: an all-failed execution and an all-succeeded
execution of the same branch node return the same reply. -/
theorem branch_reply_independent_witness :
    ((⟨"n", ["p", "q"], 0⟩ : Service).outServices ≠ []) ∧
    (Process ⟨"n", ["p", "q"], 0⟩ ⟨"i", "b", "t", 3⟩ (fun _ => .error "boom")).reply
      = (Process ⟨"n", ["p", "q"], 0⟩ ⟨"i", "b", "t", 3⟩
          (fun _ => .ok ⟨"p", "b", "t", 4⟩)).reply :=
  ⟨by decide, branch_reply_independent_of_downstream _ _ _ _ (by decide)⟩

/-- C4: `Process` always returns a nil error, every downstream failure is
collected into the logged error list rather than propagated, and every
downstream success is collected regardless of how the sibling calls
fared. -/
theorem process_never_fails (s : Service) (u : Message) (d : Nat → Except String Message) :
    (∃ m, (Process s u d).reply = .ok m) ∧
    (∀ i, i < s.outServices.length → ∀ e, d i = .error e →
        e ∈ (Process s u d).loggedErrors) ∧
    (∀ i, i < s.outServices.length → ∀ m, d i = .ok m →
        m ∈ (Process s u d).collected) := by
  refine ⟨⟨_, Process_reply_eq s u d⟩, ?_, ?_⟩
  · intro i hi e hde
    have hl : ¬ s.outServices.length = 0 := by omega
    simp [Process, hl, List.mem_filterMap, List.mem_map, List.mem_range]
    exact ⟨i, hi, by rw [hde]⟩
  · intro i hi m hdm
    have hl : ¬ s.outServices.length = 0 := by omega
    simp [Process, hl, List.mem_filterMap, List.mem_map, List.mem_range]
    exact ⟨i, hi, by rw [hdm]⟩

/-- Witness for C4 on a two-peer node where the first call fails and the
second succeeds: the reply is still ok, the failure is logged, and the
sibling success is collected. -/
theorem process_never_fails_witness :
    (∃ m, (Process ⟨"n", ["p", "q"], 0⟩ ⟨"i", "b", "t", 0⟩
        (fun i => if i = 0 then .error "boom" else .ok ⟨"q", "b", "t", 9⟩)).reply
        = .ok m) ∧
    "boom" ∈ (Process ⟨"n", ["p", "q"], 0⟩ ⟨"i", "b", "t", 0⟩
        (fun i => if i = 0 then .error "boom" else .ok ⟨"q", "b", "t", 9⟩)).loggedErrors ∧
    (⟨"q", "b", "t", 9⟩ : Message) ∈ (Process ⟨"n", ["p", "q"], 0⟩ ⟨"i", "b", "t", 0⟩
        (fun i => if i = 0 then .error "boom" else .ok ⟨"q", "b", "t", 9⟩)).collected :=
  ⟨(process_never_fails _ _ _).1,
   (process_never_fails _ _ _).2.1 0 (by decide) "boom" rfl,
   (process_never_fails _ _ _).2.2 1 (by decide) _ rfl⟩

/-- C5: every downstream request `Process` issues carries the benchId and
traceId of its input unchanged, and the reply (leaf or branch) also
carries them unchanged. -/
theorem ids_threaded_unchanged (s : Service) (u : Message) (d : Nat → Except String Message) :
    (∀ t m, (t, m) ∈ (Process s u d).issued →
        m.benchId = u.benchId ∧ m.traceId = u.traceId) ∧
    (∃ m, (Process s u d).reply = .ok m ∧
        m.benchId = u.benchId ∧ m.traceId = u.traceId) := by
  constructor
  · intro t m hm
    by_cases h : s.outServices.length = 0
    · simp [Process, h] at hm
    · simp [Process, h, List.mem_map, callServiceReq] at hm
      obtain ⟨svc, _, _, hm⟩ := hm
      exact ⟨(congrArg Message.benchId hm).symm, (congrArg Message.traceId hm).symm⟩
  · exact ⟨_, Process_reply_eq s u d, rfl, rfl⟩

/-- Witness for C5 on a concrete branch node with two peers. -/
theorem ids_threaded_unchanged_witness :
    (("p", (⟨"n", "bench7", "trace9", 4⟩ : Message)) ∈
      (Process ⟨"n", ["p", "q"], 0⟩ ⟨"i", "bench7", "trace9", 3⟩
        (fun _ => .error "x")).issued) ∧
    ((⟨"n", "bench7", "trace9", 4⟩ : Message).benchId = "bench7" ∧
     (⟨"n", "bench7", "trace9", 4⟩ : Message).traceId = "trace9") ∧
    (∃ m, (Process ⟨"n", ["p", "q"], 0⟩ ⟨"i", "bench7", "trace9", 3⟩
        (fun _ => .error "x")).reply = .ok m ∧
        m.benchId = "bench7" ∧ m.traceId = "trace9") :=
  ⟨by decide,
   (ids_threaded_unchanged ⟨"n", ["p", "q"], 0⟩ ⟨"i", "bench7", "trace9", 3⟩
      (fun _ => .error "x")).1 "p" ⟨"n", "bench7", "trace9", 4⟩ (by decide),
   (ids_threaded_unchanged ⟨"n", ["p", "q"], 0⟩ ⟨"i", "bench7", "trace9", 3⟩
      (fun _ => .error "x")).2⟩

/-- C6 counterexample: at input depth 0, a leaf node replies with depth 1
while a one-peer node whose only downstream call failed replies with
depth 0, so a caller distinguishes the two cases from the reply alone. -/
theorem leaf_vs_all_failed_distinguishable :
    (Process ⟨"n", [], 0⟩ ⟨"i", "b", "t", 0⟩ (fun _ => .error "connection refused")).reply
      = .ok ⟨"n", "b", "t", 1⟩ ∧
    (Process ⟨"n", ["p"], 0⟩ ⟨"i", "b", "t", 0⟩ (fun _ => .error "connection refused")).reply
      = .ok ⟨"n", "b", "t", 0⟩ ∧
    (Except.ok (⟨"n", "b", "t", 1⟩ : Message) : Except String Message)
      ≠ .ok ⟨"n", "b", "t", 0⟩ := by
  refine ⟨rfl, rfl, fun h => ?_⟩
  simp at h

/-- C6 (amended): the leaf reply and the all-peers-failed reply agree on
origin, benchId and traceId, but the leaf reply carries depth equal to the
wrapped input depth plus one while the branch reply carries depth 0; the
two replies are field-for-field equal exactly when the wrapped increment
is 0 (input depth -1), so in every other case a caller can tell the cases
apart through the depth field. -/
theorem leaf_vs_all_failed_fields (s0 s1 : Service) (u : Message)
    (d0 d1 : Nat → Except String Message)
    (h0 : s0.outServices = []) (h1 : s1.outServices ≠ []) (hn : s0.name = s1.name) :
    ∃ m0 m1, (Process s0 u d0).reply = .ok m0 ∧ (Process s1 u d1).reply = .ok m1 ∧
      m0.from_ = m1.from_ ∧ m0.benchId = m1.benchId ∧ m0.traceId = m1.traceId ∧
      m0.depth = wrap32 (u.depth + 1) ∧ m1.depth = 0 ∧
      (m0 = m1 ↔ wrap32 (u.depth + 1) = 0) := by
  have hl0 : s0.outServices.length = 0 := by simp [h0]
  have hl1 : ¬ s1.outServices.length = 0 := by simpa [List.length_eq_zero] using h1
  have e0 := Process_reply_eq s0 u d0
  have e1 := Process_reply_eq s1 u d1
  rw [if_pos hl0] at e0
  rw [if_neg hl1] at e1
  refine ⟨_, _, e0, e1, hn, rfl, rfl, rfl, rfl, ?_⟩
  simp [Message.mk.injEq, hn]

/-- Witness for C6 (amended) at concrete one-name services and input
depth 0: the replies share all fields but depth, and are unequal since
the wrapped increment is 1. -/
theorem leaf_vs_all_failed_fields_witness :
    ((⟨"n", [], 0⟩ : Service).outServices = []) ∧
    ((⟨"n", ["p"], 0⟩ : Service).outServices ≠ []) ∧
    (∃ m0 m1,
      (Process ⟨"n", [], 0⟩ ⟨"i", "b", "t", 0⟩ (fun _ => .error "x")).reply = .ok m0 ∧
      (Process ⟨"n", ["p"], 0⟩ ⟨"i", "b", "t", 0⟩ (fun _ => .error "y")).reply = .ok m1 ∧
      m0.from_ = m1.from_ ∧ m0.benchId = m1.benchId ∧ m0.traceId = m1.traceId ∧
      m0.depth = wrap32 ((0 : Int) + 1) ∧ m1.depth = 0 ∧
      (m0 = m1 ↔ wrap32 ((0 : Int) + 1) = 0)) :=
  ⟨rfl, by decide,
   leaf_vs_all_failed_fields ⟨"n", [], 0⟩ ⟨"n", ["p"], 0⟩ ⟨"i", "b", "t", 0⟩
     (fun _ => .error "x") (fun _ => .error "y") rfl (by decide) rfl⟩

/-! ## Claims about the ingress adapter -/

/-- C1 counterexample: a frontend whose single downstream call fails with
a deadline-exceeded gRPC error (the outcome when the 3-second end-to-end
deadline expires inside a 5-second leaf) still produces a success
response, not a server error: `Process` absorbs the deadline failure and
returns a nil error, so the error branch of `handle_http` is not taken. -/
theorem http_deadline_reports_success :
    handle_http ⟨"frontend", ["leaf"], 0⟩ "GET" "" "1700000000"
        (fun _ => .error "rpc error: code = DeadlineExceeded desc = context deadline exceeded")
      = .success "default" "1700000000" ∧
    handle_http ⟨"frontend", ["leaf"], 0⟩ "GET" "" "1700000000"
        (fun _ => .error "rpc error: code = DeadlineExceeded desc = context deadline exceeded")
      ≠ .serverError "context deadline exceeded" := by
  exact ⟨rfl, by decide⟩

/-- C1 (amended): whatever the downstream outcomes — deadline errors
included — `handle_http` never returns a server error: for a GET it
returns a success response with the default benchId, for a POST a success
response with the body as benchId, and the server-error branch guarded by
the error return of `Process` is unreachable. -/
theorem handle_http_never_server_error (s : Service) (method body traceId : String)
    (d : Nat → Except String Message) :
    (∀ e, handle_http s method body traceId d ≠ .serverError e) ∧
    (method = "GET" → handle_http s method body traceId d = .success "default" traceId) ∧
    (method = "POST" → handle_http s method body traceId d = .success body traceId) := by
  have hreply := fun b =>
    Process_reply_eq s { from_ := s.name, benchId := b, traceId := traceId, depth := 0 } d
  refine ⟨?_, ?_, ?_⟩
  · intro e
    unfold handle_http
    by_cases hg : method = "GET"
    · simp [hg, hreply "default"]
    · by_cases hp : method = "POST"
      · simp [hg, hp, hreply body]
      · simp [hg, hp]
  · intro hg
    unfold handle_http
    simp [hg, hreply "default"]
  · intro hp
    unfold handle_http
    by_cases hg : method = "GET"
    · rw [hg] at hp; simp at hp
    · simp [hg, hp, hreply body]

/-- Witness for C1 (amended) at a concrete frontend with a failed
downstream call: GET yields the default-benchId success, POST echoes the
body, and neither equals a server error. -/
theorem handle_http_never_server_error_witness :
    handle_http ⟨"frontend", ["leaf"], 0⟩ "GET" "" "42"
        (fun _ => .error "context deadline exceeded")
      ≠ .serverError "context deadline exceeded" ∧
    handle_http ⟨"frontend", ["leaf"], 0⟩ "GET" "" "42"
        (fun _ => .error "context deadline exceeded")
      = .success "default" "42" ∧
    handle_http ⟨"frontend", ["leaf"], 0⟩ "POST" "abc123" "42"
        (fun _ => .ok ⟨"leaf", "abc123", "42", 2⟩)
      = .success "abc123" "42" :=
  ⟨(handle_http_never_server_error ⟨"frontend", ["leaf"], 0⟩ "GET" "" "42"
      (fun _ => .error "context deadline exceeded")).1 "context deadline exceeded",
   (handle_http_never_server_error ⟨"frontend", ["leaf"], 0⟩ "GET" "" "42"
      (fun _ => .error "context deadline exceeded")).2.1 rfl,
   (handle_http_never_server_error ⟨"frontend", ["leaf"], 0⟩ "POST" "abc123" "42"
      (fun _ => .ok ⟨"leaf", "abc123", "42", 2⟩)).2.2 rfl⟩

/-! ## Claims about the connection registry -/

/-- A cached peer is served from the pool: no construction, pool and
handle unchanged. -/
lemma getConnection_cached (f : String → Except String Conn)
    (pool : List (String × Conn)) (p : String) (c : Conn)
    (h : poolLookup pool p = some c) :
    getConnection f pool p = ⟨.ok c, pool, false⟩ := by
  simp [getConnection, h]

/-- A single `getConnection` call never removes or replaces an existing
pool entry. -/
lemma getConnection_pool_mono (f : String → Except String Conn)
    (pool : List (String × Conn)) (q p : String) (c : Conn)
    (h : poolLookup pool p = some c) :
    poolLookup (getConnection f pool q).pool p = some c := by
  unfold getConnection
  cases hq : poolLookup pool q with
  | some conn => exact h
  | none =>
    cases hf : f q with
    | error e => exact h
    | ok conn =>
      have hne : ¬ q = p := fun he => by rw [he, h] at hq; cases hq
      simpa [poolLookup, hne] using h

/-- A sequence of `getConnection` calls never removes or replaces an
existing pool entry. -/
lemma runPool_mono (f : String → Except String Conn) :
    ∀ (calls : List String) (pool : List (String × Conn)) (p : String) (c : Conn),
      poolLookup pool p = some c → poolLookup (runPool f calls pool) p = some c := by
  intro calls
  induction calls with
  | nil => intro pool p c h; exact h
  | cons q qs ih =>
    intro pool p c h
    exact ih _ p c (getConnection_pool_mono f pool q p c h)

/-- Once a peer is cached, no later call in the sequence constructs a
channel for it again. -/
lemma constructionCount_zero_of_cached (f : String → Except String Conn) (p : String) :
    ∀ (calls : List String) (pool : List (String × Conn)) (c : Conn),
      poolLookup pool p = some c → constructionCount f p calls pool = 0 := by
  intro calls
  induction calls with
  | nil => intro pool c _; rfl
  | cons q qs ih =>
    intro pool c h
    unfold constructionCount
    by_cases hqp : q = p
    · subst hqp
      rw [getConnection_cached f pool q c h]
      simpa using ih pool c h
    · have hmono := getConnection_pool_mono f pool q p c h
      simp only [hqp, false_and, if_false, zero_add]
      exact ih _ c hmono

/-- Starting from any pool, a call sequence constructs a channel for a
given peer at most once. -/
lemma constructionCount_le_one (f : String → Except String Conn) (p : String) :
    ∀ (calls : List String) (pool : List (String × Conn)),
      constructionCount f p calls pool ≤ 1 := by
  intro calls
  induction calls with
  | nil => intro pool; exact Nat.zero_le 1
  | cons q qs ih =>
    intro pool
    unfold constructionCount
    by_cases hqp : q = p
    · subst hqp
      cases hlk : poolLookup pool q with
      | some c =>
        rw [getConnection_cached f pool q c hlk]
        simpa using ih pool
      | none =>
        cases hf : f q with
        | error e =>
          simp only [getConnection, hlk, hf]
          simpa using ih pool
        | ok conn =>
          simp only [getConnection, hlk, hf]
          have hcached : poolLookup ((q, conn) :: pool) q = some conn := by
            simp [poolLookup]
          rw [constructionCount_zero_of_cached f q qs _ conn hcached]
          simp
    · simp only [hqp, false_and, if_false, zero_add]
      exact ih _

/-- C7: repeated lookups of a cached peer return the identical channel
handle without constructing anything, an entry once inserted survives any
further call sequence unchanged, and any call sequence within one process
lifetime constructs a channel for a given peer at most once. -/
theorem registry_single_construction :
    (∀ (f : String → Except String Conn) (pool : List (String × Conn)) (p : String) (c : Conn),
        poolLookup pool p = some c → getConnection f pool p = ⟨.ok c, pool, false⟩) ∧
    (∀ (f : String → Except String Conn) (calls : List String)
        (pool : List (String × Conn)) (p : String) (c : Conn),
        poolLookup pool p = some c → poolLookup (runPool f calls pool) p = some c) ∧
    (∀ (f : String → Except String Conn) (p : String) (calls : List String)
        (pool : List (String × Conn)),
        constructionCount f p calls pool ≤ 1) :=
  ⟨getConnection_cached,
   fun f calls pool p c h => runPool_mono f calls pool p c h,
   fun f p calls pool => constructionCount_le_one f p calls pool⟩

/-- Witness for C7 on a concrete pool and call sequence: the cached
handle is returned unchanged, survives later calls, and a triple lookup
of the same fresh peer constructs exactly at most once. -/
theorem registry_single_construction_witness :
    (poolLookup [("a", ⟨0⟩)] "a" = some ⟨0⟩) ∧
    getConnection (fun _ => .ok ⟨1⟩) [("a", ⟨0⟩)] "a" = ⟨.ok ⟨0⟩, [("a", ⟨0⟩)], false⟩ ∧
    poolLookup (runPool (fun _ => .ok ⟨1⟩) ["b", "a", "b"] [("a", ⟨0⟩)]) "a" = some ⟨0⟩ ∧
    constructionCount (fun _ => .ok ⟨1⟩) "c" ["c", "c", "c"] [] ≤ 1 :=
  ⟨rfl,
   registry_single_construction.1 (fun _ => .ok ⟨1⟩) [("a", ⟨0⟩)] "a" ⟨0⟩ rfl,
   registry_single_construction.2.1 (fun _ => .ok ⟨1⟩) ["b", "a", "b"] [("a", ⟨0⟩)] "a" ⟨0⟩ rfl,
   registry_single_construction.2.2 (fun _ => .ok ⟨1⟩) "c" ["c", "c", "c"] []⟩

/-- C8: when channel construction for an uncached peer fails,
`getConnection` returns the formatted error and leaves the pool unchanged
with nothing constructed, so an identical later call for the same peer
attempts construction again — and succeeds if the transport now works. -/
theorem construction_failure_not_cached :
    ∀ (f g : String → Except String Conn) (pool : List (String × Conn))
      (p e : String) (c : Conn),
      poolLookup pool p = none → f p = .error e → g p = .ok c →
        getConnection f pool p =
          ⟨.error ("failed to connect to " ++ p ++ ": " ++ e), pool, false⟩ ∧
        getConnection g pool p = ⟨.ok c, (p, c) :: pool, true⟩ := by
  intro f g pool p e c h hf hg
  constructor
  · simp [getConnection, h, hf]
  · simp [getConnection, h, hg]

/-- Witness for C8 on the empty pool: the failed attempt caches nothing
and the retry constructs the channel. -/
theorem construction_failure_not_cached_witness :
    (poolLookup [] "peer" = none) ∧
    getConnection (fun _ => .error "refused") [] "peer" =
      ⟨.error ("failed to connect to " ++ "peer" ++ ": " ++ "refused"), [], false⟩ ∧
    getConnection (fun _ => .ok ⟨5⟩) [] "peer" = ⟨.ok ⟨5⟩, [("peer", ⟨5⟩)], true⟩ :=
  ⟨rfl,
   (construction_failure_not_cached (fun _ => .error "refused") (fun _ => .ok ⟨5⟩)
      [] "peer" "refused" ⟨5⟩ rfl rfl rfl).1,
   (construction_failure_not_cached (fun _ => .error "refused") (fun _ => .ok ⟨5⟩)
      [] "peer" "refused" ⟨5⟩ rfl rfl rfl).2⟩

/-! ## Claims about startup flag processing -/

/-- Splitting a comma-free flag value yields exactly one segment: the
value itself. -/
lemma splitOnComma_no_comma :
    ∀ (out : List Char), ',' ∉ out → splitOnComma out = [out] := by
  intro out
  induction out with
  | nil => intro _; rfl
  | cons c cs ih =>
    intro h
    have hc : ¬ c = ',' := fun he => h (he ▸ List.mem_cons_self c cs)
    have hcs : ',' ∉ cs := fun hm => h (List.mem_cons_of_mem c hm)
    simp [splitOnComma, hc, ih hcs]

/-- C9: the `-out` flag becomes the peer list only when the split has
more than one element, so a comma-free value — a single service name or
the empty string — leaves the peer list empty and the node is configured
as a leaf. -/
theorem out_flag_no_comma_leaf :
    (∀ out : List Char, ',' ∉ out → processedOutServices out = []) ∧
    processedOutServices [] = [] := by
  constructor
  · intro out h
    unfold processedOutServices
    rw [splitOnComma_no_comma out h]
    rfl
  · rfl

/-- Witness for C9: the comma-free value "svc" (one downstream name)
yields an empty peer list. -/
theorem out_flag_no_comma_leaf_witness :
    (',' ∉ (['s', 'v', 'c'] : List Char)) ∧
    processedOutServices ['s', 'v', 'c'] = [] :=
  ⟨by decide, out_flag_no_comma_leaf.1 ['s', 'v', 'c'] (by decide)⟩

end Microbench
